import Mathlib

/-!
Shallow embedding of the table formatter in src/PrintTable.h (a small C++
header-only library), together with theorems checking its natural-language
specification.

Modelling conventions:
* C++ `std::string` is Lean `String`; lengths are counted in characters
  (the source counts single-byte units, and all inputs considered are ASCII).
* `printf` side effects are modelled as explicit values: mutators return the
  new state paired with the list of diagnostics they would print, and `Print`
  returns the lines it would write to stdout.
* C++ `int` arithmetic on length differences is modelled with `Int` and
  `Int.tdiv` (C++ integer division truncates toward zero).  The expression
  `(tableWidth - 4) - title.length()` mixes `int` and `size_t`; on the
  platforms the repository targets it wraps back to the mathematically
  expected (possibly negative) `int` value, which is what the `Int` model
  computes.
* `std::string(n, c)` takes an unsigned count.  A negative `int` argument is
  a fatal error in C++ (huge allocation / length error); the model clamps
  the count with `Int.toNat`.  Theorems that depend on pad counts therefore
  either carry a hypothesis putting them in the non-negative regime (where
  the model is exact), or speak directly about the signed pad value.
* Out-of-bounds `std::vector` indexing is undefined behaviour; the layout
  computation returns `Option`, with `none` exactly when `Print` would index
  a container out of bounds.
-/

/-- Diagnostic messages printed by the C++ code, abstracted to their kind
(the `printf` calls in `AddColumn`, `AddRow`, `AddRows` and `Print`). -/
inductive Diag where
  | schemaLocked : Diag
  | rowArityMismatch : (got : Nat) → (expected : Nat) → Diag
  | incompleteTable : Diag
  deriving DecidableEq, Repr

/-- The `PrintTable` struct of src/PrintTable.h (lines 40-63).
`maxColumnWidths` is `std::vector<int>` in C++, but every value ever stored
into it is a string length, hence `List Nat`. -/
structure PrintTable where
  title : String
  columnNames : List String
  rows : List (List String)
  startedAddingRows : Bool
  alteredState : Bool
  maxColumnWidths : List Nat
  fullDividerStr : String
  titleStr : String
  columnStr : String
  rowStrs : List String
  deriving DecidableEq, Repr

/-- A default-constructed `PrintTable`: empty strings and vectors, both
flags initialised to `false`. -/
def PrintTable.empty : PrintTable :=
  { title := ""
    columnNames := []
    rows := []
    startedAddingRows := false
    alteredState := false
    maxColumnWidths := []
    fullDividerStr := ""
    titleStr := ""
    columnStr := ""
    rowStrs := [] }

/-- `PrintTable::SetTitle` (lines 65-69): overwrite the title, mark the
state altered. -/
def PrintTable.SetTitle (t : PrintTable) (title : String) : PrintTable :=
  { t with title := title, alteredState := true }

/-- `PrintTable::AddColumn` (lines 71-80): if rows were already added, print
a complaint and do nothing; otherwise push the column name and mark the
state altered. -/
def PrintTable.AddColumn (t : PrintTable) (columnName : String) :
    PrintTable × List Diag :=
  if t.startedAddingRows then
    (t, [Diag.schemaLocked])
  else
    ({ t with columnNames := t.columnNames ++ [columnName],
              alteredState := true }, [])

/-- `PrintTable::AddRow` (lines 82-92): reject (with a diagnostic) a row
whose size differs from the number of columns; otherwise append it, set
`startedAddingRows` and mark the state altered. -/
def PrintTable.AddRow (t : PrintTable) (row : List String) :
    PrintTable × List Diag :=
  if row.length ≠ t.columnNames.length then
    (t, [Diag.rowArityMismatch row.length t.columnNames.length])
  else
    ({ t with rows := t.rows ++ [row],
              startedAddingRows := true,
              alteredState := true }, [])

/-- Body of the loop in `PrintTable::AddRows` (lines 96-103): report a size
mismatch (but do not skip the row), then append the row unconditionally. -/
def addRowsStep (p : PrintTable × List Diag) (row : List String) :
    PrintTable × List Diag :=
  ({ p.1 with rows := p.1.rows ++ [row] },
   if row.length ≠ p.1.columnNames.length then
     p.2 ++ [Diag.rowArityMismatch row.length p.1.columnNames.length]
   else
     p.2)

/-- `PrintTable::AddRows` (lines 94-106): loop over the given rows appending
each one (reporting, but not rejecting, arity mismatches), then
unconditionally set `startedAddingRows = true` and `alteredState = true`
(lines 104-105 sit after the loop and run even for an empty argument). -/
def PrintTable.AddRows (t : PrintTable) (newRows : List (List String)) :
    PrintTable × List Diag :=
  let p := newRows.foldl addRowsStep (t, [])
  ({ p.1 with startedAddingRows := true, alteredState := true }, p.2)

/-- `std::string(n, c)` where `n` comes from a C++ `int`.  For `n < 0` the
C++ call is fatal; the model clamps with `Int.toNat` (see the header comment
of this file). -/
def repChar (n : Int) (c : Char) : String :=
  String.mk (List.replicate n.toNat c)

/-- A run of `n` spaces (specification-side abbreviation). -/
def spaces (n : Nat) : String :=
  String.mk (List.replicate n ' ')

/-- One pass of the column-width scan for a single row (lines 123-132): for
each column index `c` the code reads `rows[r][c]` and maximises
`maxColumnWidths[c]` with its length.  `none` models the out-of-bounds read
`rows[r][c]` that happens when the row has fewer cells than there are
columns. -/
def updateWidths : List Nat → List String → Option (List Nat)
  | [], _ => some []
  | _ :: _, [] => none
  | w :: ws, cell :: cells =>
      (updateWidths ws cells).map (fun rest => max w cell.length :: rest)

/-- The full column-width computation of `Print` (lines 117-132): initialise
each width to the column name's length, then scan every stored row. -/
def computeWidths (columnNames : List String) (rows : List (List String)) :
    Option (List Nat) :=
  rows.foldl (fun acc row => acc.bind (fun ws => updateWidths ws row))
    (some (columnNames.map String.length))

/-- Reference form of the width scan used in proofs: fold the rows with a
pointwise maximum. -/
def scanWidths (ws : List Nat) : List (List String) → List Nat
  | [] => ws
  | r :: rs => scanWidths (List.zipWith max ws (r.map String.length)) rs

/-- The table-width accumulation of lines 147-155: each column contributes
its width plus 3, and a final 1 is added for the closing border. -/
def tableWidth (ws : List Nat) : Nat :=
  ws.foldl (fun acc w => acc + (w + 3)) 0 + 1

/-- `lengthDiff` of the title block (line 162), as the signed value the C++
`int` ends up holding. -/
def titleLengthDiff (tw : Nat) (title : String) : Int :=
  ((tw : Int) - 4) - title.length

/-- `numPreSpace` of the title block (line 164). -/
def titleNumPreSpace (tw : Nat) (title : String) : Int :=
  Int.tdiv (titleLengthDiff tw title) 2

/-- `numPostSpace` of the title block (line 167). -/
def titleNumPostSpace (tw : Nat) (title : String) : Int :=
  Int.tdiv (titleLengthDiff tw title + 1) 2

/-- The title line built at lines 158-171. -/
def mkTitleStr (tw : Nat) (title : String) : String :=
  "| " ++ repChar (titleNumPreSpace tw title) ' ' ++ title
       ++ repChar (titleNumPostSpace tw title) ' ' ++ " |"

/-- One column-name segment of the header line (lines 175-194): centre the
name when the column is strictly wider, otherwise emit it unpadded. -/
def columnSegment (w : Nat) (columnName : String) : String :=
  let lengthDiff : Int := (w : Int) - columnName.length
  if 0 < lengthDiff then
    "| " ++ repChar (Int.tdiv lengthDiff 2) ' ' ++ columnName
         ++ repChar (Int.tdiv (lengthDiff + 1) 2) ' ' ++ " "
  else
    "| " ++ columnName ++ " "

/-- The header line (lines 173-195).  In the source the loop runs over
`columnNames` and indexes `maxColumnWidths`, which always has exactly
`columnNames.size()` entries at this point. -/
def mkColumnStr : List Nat → List String → String
  | w :: ws, name :: names => columnSegment w name ++ mkColumnStr ws names
  | _, _ => "|"

/-- One cell segment of a row line (lines 203-212): always centred, with no
guard on the sign of `lengthDiff`. -/
def cellSegment (w : Nat) (elementData : String) : String :=
  let lengthDiff : Int := (w : Int) - elementData.length
  "| " ++ repChar (Int.tdiv lengthDiff 2) ' ' ++ elementData
       ++ repChar (Int.tdiv (lengthDiff + 1) 2) ' ' ++ " "

/-- A row line (lines 199-215): the loop runs over the cells of the row and
reads `maxColumnWidths[e]`; `none` models the out-of-bounds read that
happens when the row has more cells than there are columns. -/
def rowSegments : List Nat → List String → Option String
  | _, [] => some "|"
  | [], _ :: _ => none
  | w :: ws, cell :: cells =>
      (rowSegments ws cells).map (fun rest => cellSegment w cell ++ rest)

/-- All row lines, in order (lines 198-215). -/
def mkRowStrs (ws : List Nat) : List (List String) → Option (List String)
  | [] => some []
  | r :: rs =>
      (rowSegments ws r).bind
        (fun s => (mkRowStrs ws rs).map (fun ss => s :: ss))

/-- The format data recomputed by `Print` when `alteredState` is set. -/
structure Layout where
  maxColumnWidths : List Nat
  fullDividerStr : String
  titleStr : String
  columnStr : String
  rowStrs : List String
  deriving DecidableEq, Repr

/-- The whole layout recomputation of `Print` (lines 115-216); `none` models
an out-of-bounds vector access. -/
def buildLayout (title : String) (columnNames : List String)
    (rows : List (List String)) : Option Layout :=
  (computeWidths columnNames rows).bind (fun ws =>
    (mkRowStrs ws rows).map (fun rowStrs =>
      { maxColumnWidths := ws
        fullDividerStr := repChar (tableWidth ws : Int) '-'
        titleStr := mkTitleStr (tableWidth ws) title
        columnStr := mkColumnStr ws columnNames
        rowStrs := rowStrs }))

/-- What a call to `Print` writes to stdout: either just the
incomplete-table diagnostic, or the table lines. -/
inductive PrintResult where
  | incomplete : PrintResult
  | ok : List String → PrintResult
  deriving DecidableEq, Repr

/-- `PrintTable::Print` (lines 108-231).  If title, columns or rows are
missing, the diagnostic is printed and nothing changes.  Otherwise the
layout is recomputed when `alteredState` is set (and taken from the cached
fields when not), the line sequence divider, title, divider, header,
divider, rows, divider is emitted, and `alteredState` is cleared.  `none`
models an out-of-bounds vector access during the recomputation. -/
def PrintTable.Print (t : PrintTable) : Option (PrintTable × PrintResult) :=
  if t.title = "" ∨ t.columnNames = [] ∨ t.rows = [] then
    some (t, PrintResult.incomplete)
  else
    let layoutOpt : Option Layout :=
      if t.alteredState then
        buildLayout t.title t.columnNames t.rows
      else
        some { maxColumnWidths := t.maxColumnWidths
               fullDividerStr := t.fullDividerStr
               titleStr := t.titleStr
               columnStr := t.columnStr
               rowStrs := t.rowStrs }
    layoutOpt.map (fun L =>
      ({ t with maxColumnWidths := L.maxColumnWidths
                fullDividerStr := L.fullDividerStr
                titleStr := L.titleStr
                columnStr := L.columnStr
                rowStrs := L.rowStrs
                alteredState := false },
       PrintResult.ok
         ([L.fullDividerStr, L.titleStr, L.fullDividerStr, L.columnStr,
           L.fullDividerStr] ++ L.rowStrs ++ [L.fullDividerStr])))

/-- `PrintTable::Reset` (lines 233-241): clears `title`, `columnNames`,
`rows` and `maxColumnWidths`, resets `startedAddingRows`, sets
`alteredState`.  Note it does NOT touch `fullDividerStr`, `titleStr`,
`columnStr` or `rowStrs`. -/
def PrintTable.Reset (t : PrintTable) : PrintTable :=
  { t with title := ""
           columnNames := []
           rows := []
           maxColumnWidths := []
           startedAddingRows := false
           alteredState := true }

/-- The lines a `Print` call writes (empty when it only prints a diagnostic
or crashes). -/
def printedLines (r : Option (PrintTable × PrintResult)) : List String :=
  match r with
  | some (_, PrintResult.ok lines) => lines
  | _ => []

/-- The state after a `Print` call (the call's argument when the call only
prints a diagnostic; taken as the argument on a crash). -/
def afterPrint (t : PrintTable) : PrintTable :=
  ((t.Print).map Prod.fst).getD t

/-- The length of cell `i` of a row (of the empty string when absent). -/
def cellLen (i : Nat) (r : List String) : Nat :=
  ((r.get? i).getD ("")).length

/-- Specification-side column width: the maximum of the column name's length
and the lengths of the column's cells over all stored rows. -/
def colWidth (names : List String) (rows : List (List String)) (i : Nat) :
    Nat :=
  max (cellLen i names) ((rows.map (cellLen i)).foldr max 0)

/-- Column `i`'s width as computed by the scan in `Print`, `none` if the
scan is out of bounds or the column does not exist. -/
def widthAt (names : List String) (rows : List (List String)) (i : Nat) :
    Option Nat :=
  (computeWidths names rows).bind (fun ws => ws.get? i)

/-- The table total width of the current contents (only meaningful when the
width scan succeeds). -/
def tableTotalWidth (t : PrintTable) : Nat :=
  tableWidth ((computeWidths t.columnNames t.rows).getD [])

/-- A state reached by actual operations: title of length 2 against a table
total width of 5, exercising the `lengthDiff = -1` branch of the title
centring (where the C++ pads are 0 and the model is exact). -/
def cexC1 : PrintTable :=
  (((PrintTable.empty.SetTitle ("ab")).AddColumn ("A")).1.AddRow ["x"]).1

/-- A small fully valid table reached by actual operations (title of length
1, two columns, one matching row). -/
def demoTable : PrintTable :=
  ((((PrintTable.empty.SetTitle ("T")).AddColumn ("A")).1.AddColumn
    ("BB")).1.AddRow ["x", "y"]).1

/-- A state reached via `AddRows` appending a row with fewer cells than
there are columns: printing it makes the width scan read `rows[0][1]` out
of bounds. -/
def crashC4 : PrintTable :=
  ((((PrintTable.empty.SetTitle ("T")).AddColumn ("A")).1.AddColumn
    ("B")).1.AddRows [["a"]]).1

/-- A valid one-column, one-row table reached by actual operations whose
contents were printed once (so all cache fields are populated). -/
def cexC7 : PrintTable :=
  (((PrintTable.empty.SetTitle ("T")).AddColumn ("A")).1.AddRow ["x"]).1

/-- A state reached by actual operations whose title (length 5) exceeds its
table total width (5) minus 4, driving the title pad computation negative. -/
def reachC10 : PrintTable :=
  (((PrintTable.empty.SetTitle ("Hello")).AddColumn ("A")).1.AddRow ["x"]).1

/-! ### Helper lemmas -/

theorem tdiv2_coe (d : Nat) : Int.tdiv (d : Int) 2 = ((d / 2 : Nat) : Int) := rfl

theorem repChar_length (n : Int) (c : Char) : (repChar n c).length = n.toNat := by
  show (List.replicate n.toNat c).length = n.toNat
  simp

theorem spaces_length (n : Nat) : (spaces n).length = n := by
  show (List.replicate n ' ').length = n
  simp

theorem repChar_coe (n : Nat) (c : Char) :
    repChar (n : Int) c = String.mk (List.replicate n c) := by
  show String.mk (List.replicate ((n : Int)).toNat c) = _
  rw [Int.toNat_natCast]

theorem divider_length (tw : Nat) : (repChar (tw : Int) '-').length = tw := by
  rw [repChar_length]
  exact Int.toNat_natCast tw

theorem tdiv_two_le_neg_one (a : Int) (h : a ≤ -2) : Int.tdiv a 2 ≤ -1 := by
  cases a with
  | ofNat n =>
    have h0 : (0 : Int) ≤ Int.ofNat n := Int.ofNat_nonneg n
    exact absurd h (by omega)
  | negSucc m =>
    rw [Int.negSucc_eq] at h
    have hm : 1 ≤ m := by omega
    have he : Int.tdiv (Int.negSucc m) 2 = -(((m + 1) / 2 : Nat) : Int) := rfl
    rw [he]
    have h2 : 1 ≤ (m + 1) / 2 := by omega
    omega

theorem cellSegment_length (w : Nat) (s : String) (h : s.length ≤ w) :
    (cellSegment w s).length = w + 3 := by
  have h1 : ((w : Int) - s.length) = ((w - s.length : Nat) : Int) := by omega
  have h2 : ((w - s.length : Nat) : Int) + 1 = ((w - s.length + 1 : Nat) : Int) := by
    omega
  have l1 : ("| " : String).length = 2 := rfl
  have l2 : (" " : String).length = 1 := rfl
  simp only [cellSegment, h1, h2, tdiv2_coe, String.length_append, repChar_length,
    Int.toNat_natCast, l1, l2]
  omega

theorem columnSegment_length (w : Nat) (s : String) (h : s.length ≤ w) :
    (columnSegment w s).length = w + 3 := by
  have l1 : ("| " : String).length = 2 := rfl
  have l2 : (" " : String).length = 1 := rfl
  by_cases hc : (0 : Int) < (w : Int) - s.length
  · simp only [columnSegment]
    rw [if_pos hc]
    have h1 : ((w : Int) - s.length) = ((w - s.length : Nat) : Int) := by omega
    have h2 : ((w - s.length : Nat) : Int) + 1 = ((w - s.length + 1 : Nat) : Int) := by
      omega
    simp only [h1, h2, tdiv2_coe, String.length_append,
      repChar_length, Int.toNat_natCast, l1, l2]
    omega
  · have he : s.length = w := by omega
    simp only [columnSegment]
    rw [if_neg hc]
    simp only [String.length_append, l1, l2]
    omega

theorem mkTitleStr_length (tw : Nat) (title : String)
    (h : title.length + 4 ≤ tw) : (mkTitleStr tw title).length = tw := by
  have l1 : ("| " : String).length = 2 := rfl
  have l2 : (" |" : String).length = 2 := rfl
  have h1 : titleLengthDiff tw title = ((tw - 4 - title.length : Nat) : Int) := by
    simp only [titleLengthDiff]
    omega
  have h2 : ((tw - 4 - title.length : Nat) : Int) + 1
      = ((tw - 4 - title.length + 1 : Nat) : Int) := by omega
  simp only [mkTitleStr, titleNumPreSpace, titleNumPostSpace, h1, h2, tdiv2_coe,
    String.length_append, repChar_length, Int.toNat_natCast, l1, l2]
  omega

theorem foldl_width (ws : List Nat) (a : Nat) :
    ws.foldl (fun acc w => acc + (w + 3)) a
      = a + ws.foldl (fun acc w => acc + (w + 3)) 0 := by
  induction ws generalizing a with
  | nil => simp
  | cons w ws ih =>
    simp only [List.foldl_cons]
    rw [ih (a + (w + 3)), ih (0 + (w + 3))]
    omega

theorem tableWidth_cons (w : Nat) (ws : List Nat) :
    tableWidth (w :: ws) = (w + 3) + tableWidth ws := by
  simp only [tableWidth, List.foldl_cons]
  rw [foldl_width ws (0 + (w + 3))]
  omega

theorem updateWidths_some (ws : List Nat) (row : List String)
    (h : ws.length ≤ row.length) :
    updateWidths ws row = some (List.zipWith max ws (row.map String.length)) := by
  induction ws generalizing row with
  | nil => simp [updateWidths]
  | cons w ws ih =>
    cases row with
    | nil => simp at h
    | cons cell cells =>
      simp only [List.length_cons, Nat.add_le_add_iff_right] at h
      simp [updateWidths, ih cells h, List.zipWith]

theorem zipWith_max_length (ws ls : List Nat) (h : ws.length ≤ ls.length) :
    (List.zipWith max ws ls).length = ws.length := by
  rw [List.length_zipWith]
  omega

theorem zipWith_max_get (ws ls : List Nat) (i : Nat) (h1 : i < ws.length)
    (h2 : i < ls.length) :
    (List.zipWith max ws ls).get? i
      = some (max ((ws.get? i).getD 0) ((ls.get? i).getD 0)) := by
  induction ws generalizing ls i with
  | nil => simp at h1
  | cons w ws ih =>
    cases ls with
    | nil => simp at h2
    | cons l ls =>
      cases i with
      | zero => simp [List.zipWith]
      | succ i =>
        simp only [List.length_cons, Nat.add_lt_add_iff_right] at h1 h2
        simpa [List.zipWith] using ih ls i h1 h2

theorem scanWidths_length (rows : List (List String)) (ws : List Nat)
    (h : ∀ r ∈ rows, ws.length ≤ r.length) :
    (scanWidths ws rows).length = ws.length := by
  induction rows generalizing ws with
  | nil => rfl
  | cons r rs ih =>
    have hr : ws.length ≤ r.length := h r (by simp)
    have hl : (List.zipWith max ws (r.map String.length)).length = ws.length := by
      rw [zipWith_max_length]
      simpa using hr
    rw [show scanWidths ws (r :: rs)
        = scanWidths (List.zipWith max ws (r.map String.length)) rs from rfl]
    rw [ih _ (by intro q hq; rw [hl]; exact h q (by simp [hq])), hl]

theorem computeWidths_eq (names : List String) (rows : List (List String))
    (h : ∀ r ∈ rows, names.length ≤ r.length) :
    computeWidths names rows = some (scanWidths (names.map String.length) rows) := by
  have key : ∀ (rs : List (List String)) (ws : List Nat),
      (∀ r ∈ rs, ws.length ≤ r.length) →
      rs.foldl (fun acc row => acc.bind (fun w => updateWidths w row)) (some ws)
        = some (scanWidths ws rs) := by
    intro rs
    induction rs with
    | nil => intro ws _; rfl
    | cons r₁ rs ih =>
      intro ws hws
      have hr : ws.length ≤ r₁.length := hws r₁ (by simp)
      have hl : (List.zipWith max ws (r₁.map String.length)).length = ws.length := by
        rw [zipWith_max_length]
        simpa using hr
      simp only [List.foldl_cons]
      rw [show ((some ws).bind fun w => updateWidths w r₁) = updateWidths ws r₁ from rfl,
        updateWidths_some ws r₁ hr,
        show scanWidths ws (r₁ :: rs)
          = scanWidths (List.zipWith max ws (r₁.map String.length)) rs from rfl]
      exact ih _ (by intro q hq; rw [hl]; exact hws q (by simp [hq]))
  have := key rows (names.map String.length)
    (by intro r hr; simpa using h r hr)
  simpa [computeWidths] using this

theorem scanWidths_get (rows : List (List String)) (ws : List Nat) (i : Nat)
    (hi : i < ws.length) (h : ∀ r ∈ rows, ws.length ≤ r.length) :
    (scanWidths ws rows).get? i
      = some (max ((ws.get? i).getD 0) ((rows.map (cellLen i)).foldr max 0)) := by
  induction rows generalizing ws with
  | nil =>
    rw [show scanWidths ws [] = ws from rfl]
    rw [List.get?_eq_get hi]
    simp
  | cons r rs ih =>
    have hr : ws.length ≤ r.length := h r (by simp)
    have hml : ws.length ≤ (r.map String.length).length := by simpa using hr
    have hl : (List.zipWith max ws (r.map String.length)).length = ws.length :=
      zipWith_max_length _ _ hml
    have hir : i < r.length := lt_of_lt_of_le hi hr
    have hsome : r.get? i = some (r.get ⟨i, hir⟩) := List.get?_eq_get hir
    have hcell : ((r.map String.length).get? i).getD 0 = cellLen i r := by
      show ((r.map String.length).get? i).getD 0 = ((r.get? i).getD ("")).length
      rw [List.get?_map, hsome]
      rfl
    rw [show scanWidths ws (r :: rs)
        = scanWidths (List.zipWith max ws (r.map String.length)) rs from rfl]
    rw [ih (List.zipWith max ws (r.map String.length)) (by rw [hl]; exact hi)
      (by intro q hq; rw [hl]; exact h q (by simp [hq]))]
    rw [zipWith_max_get ws (r.map String.length) i hi (by omega), hcell]
    simp only [Option.getD_some, List.map_cons, List.foldr_cons]
    rw [max_assoc]

theorem le_foldr_max (a : Nat) (l : List Nat) (h : a ∈ l) : a ≤ l.foldr max 0 := by
  induction l with
  | nil => simp at h
  | cons b l ih =>
    rcases List.mem_cons.mp h with h1 | h2
    · simp [h1, le_max_iff]
    · simp only [List.foldr_cons, le_max_iff]
      exact Or.inr (ih h2)

theorem cellLen_of_ge (i : Nat) (r : List String) (h : r.length ≤ i) :
    cellLen i r = 0 := by
  show ((r.get? i).getD ("")).length = 0
  rw [List.get?_eq_none.mpr h]
  rfl

theorem cellLen_self (i : Nat) (r : List String) (h : i < r.length) :
    cellLen i r = (r.get ⟨i, h⟩).length := by
  show ((r.get? i).getD ("")).length = _
  rw [List.get?_eq_get h]
  rfl

theorem finalWidths_name_bound (names : List String) (rows : List (List String))
    (h : ∀ r ∈ rows, r.length = names.length) (i : Nat) :
    cellLen i names ≤ ((scanWidths (names.map String.length) rows).get? i).getD 0 := by
  have hlen : (names.map String.length).length = names.length := by simp
  by_cases hi : i < names.length
  · rw [scanWidths_get rows (names.map String.length) i (by omega)
      (by intro r hr; rw [hlen, h r hr])]
    have hsome : names.get? i = some (names.get ⟨i, hi⟩) := List.get?_eq_get hi
    have hn : ((names.map String.length).get? i).getD 0 = cellLen i names := by
      show _ = ((names.get? i).getD ("")).length
      rw [List.get?_map, hsome]
      rfl
    rw [hn]
    simp
  · rw [cellLen_of_ge i names (by omega)]
    omega

theorem finalWidths_cell_bound (names : List String) (rows : List (List String))
    (h : ∀ r ∈ rows, r.length = names.length) (r : List String) (hr : r ∈ rows)
    (i : Nat) :
    cellLen i r ≤ ((scanWidths (names.map String.length) rows).get? i).getD 0 := by
  have hlen : (names.map String.length).length = names.length := by simp
  by_cases hi : i < names.length
  · rw [scanWidths_get rows (names.map String.length) i (by omega)
      (by intro q hq; rw [hlen, h q hq])]
    have hmem : cellLen i r ∈ rows.map (cellLen i) := List.mem_map_of_mem _ hr
    have := le_foldr_max _ _ hmem
    simp only [Option.getD_some, le_max_iff]
    exact Or.inr this
  · rw [cellLen_of_ge i r (by rw [h r hr]; omega)]
    omega

theorem mkColumnStr_length (ws : List Nat) (names : List String)
    (hlen : ws.length = names.length)
    (hb : ∀ i, cellLen i names ≤ (ws.get? i).getD 0) :
    (mkColumnStr ws names).length = tableWidth ws := by
  induction ws generalizing names with
  | nil =>
    cases names with
    | nil => rfl
    | cons n ns => simp at hlen
  | cons w ws ih =>
    cases names with
    | nil => simp at hlen
    | cons n ns =>
      have h0 : n.length ≤ w := by
        have := hb 0
        rw [cellLen_self 0 (n :: ns) (by simp)] at this
        simpa using this
      have htail : ∀ i, cellLen i ns ≤ (ws.get? i).getD 0 := by
        intro i
        have := hb (i + 1)
        rw [show cellLen (i + 1) (n :: ns) = cellLen i ns from rfl] at this
        simpa using this
      rw [show mkColumnStr (w :: ws) (n :: ns)
          = columnSegment w n ++ mkColumnStr ws ns from rfl]
      rw [String.length_append, columnSegment_length w n h0,
        ih ns (by simpa using hlen) htail, tableWidth_cons]

theorem rowSegments_spec (ws : List Nat) (cells : List String)
    (hlen : cells.length = ws.length)
    (hb : ∀ i, cellLen i cells ≤ (ws.get? i).getD 0) :
    ∃ s, rowSegments ws cells = some s ∧ s.length = tableWidth ws := by
  induction ws generalizing cells with
  | nil =>
    cases cells with
    | nil => exact ⟨"|", rfl, rfl⟩
    | cons c cs => simp at hlen
  | cons w ws ih =>
    cases cells with
    | nil => simp at hlen
    | cons c cs =>
      have h0 : c.length ≤ w := by
        have := hb 0
        rw [cellLen_self 0 (c :: cs) (by simp)] at this
        simpa using this
      have htail : ∀ i, cellLen i cs ≤ (ws.get? i).getD 0 := by
        intro i
        have := hb (i + 1)
        rw [show cellLen (i + 1) (c :: cs) = cellLen i cs from rfl] at this
        simpa using this
      obtain ⟨s, hs, hsl⟩ := ih cs (by simpa using hlen) htail
      refine ⟨cellSegment w c ++ s, ?_, ?_⟩
      · rw [show rowSegments (w :: ws) (c :: cs)
            = (rowSegments ws cs).map (fun rest => cellSegment w c ++ rest) from rfl,
          hs]
        rfl
      · rw [String.length_append, cellSegment_length w c h0, hsl, tableWidth_cons]

theorem mkRowStrs_spec (ws : List Nat) (rows : List (List String))
    (h : ∀ r ∈ rows, ∃ s, rowSegments ws r = some s ∧ s.length = tableWidth ws) :
    ∃ ss, mkRowStrs ws rows = some ss ∧ ss.length = rows.length ∧
      ∀ s ∈ ss, s.length = tableWidth ws := by
  induction rows with
  | nil => exact ⟨[], rfl, rfl, by simp⟩
  | cons r rs ih =>
    obtain ⟨s, hs, hsl⟩ := h r (by simp)
    obtain ⟨ss, hss, hssl, hall⟩ := ih (by intro q hq; exact h q (by simp [hq]))
    refine ⟨s :: ss, ?_, by simp [hssl], ?_⟩
    · rw [show mkRowStrs ws (r :: rs)
          = (rowSegments ws r).bind
              (fun s => (mkRowStrs ws rs).map (fun ss => s :: ss)) from rfl,
        hs, hss]
      rfl
    · intro q hq
      rcases List.mem_cons.mp hq with h1 | h2
      · rw [h1]; exact hsl
      · exact hall q h2

theorem Print_valid (t : PrintTable)
    (hT : t.title ≠ "") (hC : t.columnNames ≠ []) (hR : t.rows ≠ [])
    (hA : ∀ r ∈ t.rows, r.length = t.columnNames.length)
    (hD : t.alteredState = true) :
    ∃ ws rowLines,
      computeWidths t.columnNames t.rows = some ws ∧
      ws.length = t.columnNames.length ∧
      mkRowStrs ws t.rows = some rowLines ∧
      rowLines.length = t.rows.length ∧
      (∀ s ∈ rowLines, s.length = tableWidth ws) ∧
      (∀ i, cellLen i t.columnNames ≤ (ws.get? i).getD 0) ∧
      printedLines t.Print =
        [repChar (tableWidth ws : Int) '-', mkTitleStr (tableWidth ws) t.title,
         repChar (tableWidth ws : Int) '-', mkColumnStr ws t.columnNames,
         repChar (tableWidth ws : Int) '-'] ++ rowLines
          ++ [repChar (tableWidth ws : Int) '-'] := by
  have hcw : computeWidths t.columnNames t.rows
      = some (scanWidths (t.columnNames.map String.length) t.rows) :=
    computeWidths_eq _ _ (by intro r hr; rw [hA r hr])
  set ws := scanWidths (t.columnNames.map String.length) t.rows with hws
  have hwsl : ws.length = t.columnNames.length := by
    rw [hws, scanWidths_length t.rows _
      (by intro r hr; simp [hA r hr])]
    simp
  have hrows : ∀ r ∈ t.rows, ∃ s, rowSegments ws r = some s ∧
      s.length = tableWidth ws := by
    intro r hr
    exact rowSegments_spec ws r (by rw [hA r hr, hwsl])
      (fun i => finalWidths_cell_bound _ _ hA r hr i)
  obtain ⟨rowLines, hrl, hrll, hrlall⟩ := mkRowStrs_spec ws t.rows hrows
  refine ⟨ws, rowLines, hcw, hwsl, hrl, hrll, hrlall,
    (fun i => finalWidths_name_bound _ _ hA i), ?_⟩
  have hcond : ¬(t.title = "" ∨ t.columnNames = [] ∨ t.rows = []) := by
    push_neg
    exact ⟨hT, hC, hR⟩
  simp only [PrintTable.Print, hD, if_true, if_neg hcond, buildLayout, hcw,
    Option.bind_some, Option.some_bind, hrl, Option.map_some, Option.map_some',
    Option.map_map, Function.comp_apply, printedLines]

theorem addRows_fold (rs : List (List String)) :
    ∀ (t : PrintTable) (ds : List Diag),
      rs.foldl addRowsStep (t, ds)
        = ({ t with rows := t.rows ++ rs },
           ds ++ (rs.filter (fun r => decide (r.length ≠ t.columnNames.length))).map
             (fun r => Diag.rowArityMismatch r.length t.columnNames.length)) := by
  induction rs with
  | nil => intro t ds; simp
  | cons r rs ih =>
    intro t ds
    rw [List.foldl_cons,
      show addRowsStep (t, ds) r
        = ({ t with rows := t.rows ++ [r] },
           if r.length ≠ t.columnNames.length then
             ds ++ [Diag.rowArityMismatch r.length t.columnNames.length]
           else ds) from rfl,
      ih]
    by_cases h : r.length ≠ t.columnNames.length
    · simp [h, List.filter_cons]
    · simp [h, List.filter_cons]

/-! ### Claim theorems -/

/-- Claim C1, counterexample.  At the reachable state `cexC1` (title of
length 2, one column of width 1, one matching row, dirty), the preconditions
of the claim hold, yet `Print` emits 7 lines — not `5 + rowCount = 6` — and
the title line is one character longer than the other lines (the C++ title
pads are 0 here, so the model is exact). -/
theorem C1_counterexample :
    cexC1.title = "ab" ∧ cexC1.columnNames = ["A"] ∧ cexC1.rows = [["x"]] ∧
    cexC1.alteredState = true ∧
    (printedLines cexC1.Print).length = 7 ∧
    (printedLines cexC1.Print).map String.length = [5, 6, 5, 5, 5, 5, 5] := by
  refine ⟨?_, ?_, ?_, ?_, ?_, ?_⟩ <;> decide

/-- Claim C1, amended.  For every dirty state with a non-empty title, at
least one column, at least one row, every stored row having exactly as many
cells as there are columns, and a title that fits (its length at most the
table total width minus 4), `Print` emits exactly `6 + rowCount` lines, and
every emitted line has length equal to the table total width
(sum over columns of `w[i] + 3`, plus 1). -/
theorem C1_render_shape (t : PrintTable)
    (hT : t.title ≠ "") (hC : t.columnNames ≠ []) (hR : t.rows ≠ [])
    (hA : ∀ r ∈ t.rows, r.length = t.columnNames.length)
    (hD : t.alteredState = true)
    (hFit : t.title.length + 4 ≤ tableTotalWidth t) :
    (printedLines t.Print).length = 6 + t.rows.length ∧
    (printedLines t.Print).map String.length
      = List.replicate (6 + t.rows.length) (tableTotalWidth t) := by
  obtain ⟨ws, rowLines, hcw, hwsl, hrl, hrll, hrlall, hnb, hpl⟩ :=
    Print_valid t hT hC hR hA hD
  have htw : tableTotalWidth t = tableWidth ws := by
    rw [tableTotalWidth, hcw]
    rfl
  have htitle : (mkTitleStr (tableWidth ws) t.title).length = tableWidth ws :=
    mkTitleStr_length _ _ (by rw [← htw]; exact hFit)
  have hcol : (mkColumnStr ws t.columnNames).length = tableWidth ws :=
    mkColumnStr_length ws t.columnNames hwsl hnb
  have hall : ∀ l ∈ printedLines t.Print, l.length = tableWidth ws := by
    rw [hpl]
    intro l hl
    simp only [List.mem_append, List.mem_cons, List.not_mem_nil, or_false] at hl
    rcases hl with ((h1 | h2 | h3 | h4 | h5) | h6) | h7
    · rw [h1, divider_length]
    · rw [h2, htitle]
    · rw [h3, divider_length]
    · rw [h4, hcol]
    · rw [h5, divider_length]
    · exact hrlall l h6
    · rw [h7, divider_length]
  constructor
  · rw [hpl]
    simp [hrll]
    omega
  · apply List.eq_replicate_iff.mpr
    refine ⟨?_, ?_⟩
    · rw [hpl]
      simp [hrll]
      omega
    · intro b hb
      obtain ⟨s, hs, hbs⟩ := List.mem_map.mp hb
      rw [← hbs, htw]
      exact hall s hs

/-- Claim C1, witness: the amended render-shape theorem evaluated on the
concrete table `demoTable` (1 row, table width 10). -/
theorem C1_render_shape_witness :
    (printedLines demoTable.Print).length = 6 + demoTable.rows.length ∧
    (printedLines demoTable.Print).map String.length
      = List.replicate (6 + demoTable.rows.length) (tableTotalWidth demoTable) :=
  C1_render_shape demoTable (by decide) (by decide) (by decide) (by decide)
    (by decide) (by decide)

/-- Claim C2: for any state whose width scan is in bounds (every stored row
has at least as many cells as there are columns, as every well-formed state
does), the width the scan computes for column `i` is the maximum of the
length of `columnNames[i]` and the lengths of cell `i` of all stored rows. -/
theorem C2_column_width (t : PrintTable) (i : Nat)
    (h : ∀ r ∈ t.rows, t.columnNames.length ≤ r.length)
    (hi : i < t.columnNames.length) :
    widthAt t.columnNames t.rows i = some (colWidth t.columnNames t.rows i) := by
  rw [widthAt, computeWidths_eq _ _ h, Option.some_bind]
  have hlen : (t.columnNames.map String.length).length = t.columnNames.length := by
    simp
  rw [scanWidths_get t.rows _ i (by omega)
    (by intro r hr; rw [hlen]; exact h r hr)]
  have hsome : t.columnNames.get? i = some (t.columnNames.get ⟨i, hi⟩) :=
    List.get?_eq_get hi
  have hn : ((t.columnNames.map String.length).get? i).getD 0
      = cellLen i t.columnNames := by
    show _ = ((t.columnNames.get? i).getD ("")).length
    rw [List.get?_map, hsome]
    rfl
  rw [hn]
  rfl

/-- Claim C2, witness: the column-width theorem evaluated on `demoTable`
at column 1. -/
theorem C2_column_width_witness :
    widthAt demoTable.columnNames demoTable.rows 1
      = some (colWidth demoTable.columnNames demoTable.rows 1) :=
  C2_column_width demoTable 1 (by decide) (by decide)

/-- Claim C3: a mismatched row is rejected (with a diagnostic) by `AddRow`
and appended anyway (with a diagnostic) by `AddRows`; matching rows are
appended by both.  `AddRows` appends every given row and reports exactly the
mismatched ones. -/
theorem C3_row_arity_policy (t : PrintTable) (row1 row2 : List String)
    (rs : List (List String))
    (h1 : row1.length ≠ t.columnNames.length)
    (h2 : row2.length = t.columnNames.length) :
    t.AddRow row1 = (t, [Diag.rowArityMismatch row1.length t.columnNames.length]) ∧
    (t.AddRow row2).1.rows = t.rows ++ [row2] ∧
    (t.AddRow row2).2 = [] ∧
    (t.AddRows rs).1.rows = t.rows ++ rs ∧
    (t.AddRows rs).2
      = (rs.filter (fun r => decide (r.length ≠ t.columnNames.length))).map
          (fun r => Diag.rowArityMismatch r.length t.columnNames.length) := by
  refine ⟨?_, ?_, ?_, ?_, ?_⟩
  · rw [PrintTable.AddRow, if_pos h1]
  · rw [PrintTable.AddRow, if_neg (by omega)]
  · rw [PrintTable.AddRow, if_neg (by omega)]
  · show ((rs.foldl addRowsStep (t, [])).1.rows = _)
    rw [addRows_fold rs t []]
  · show ((rs.foldl addRowsStep (t, [])).2 = _)
    rw [addRows_fold rs t []]
    simp

/-- Claim C3, witness: on a table with zero columns, `AddRow` rejects a
1-cell row and accepts an empty row, while `AddRows` appends both a
mismatched 1-cell row and a matching empty row, reporting only the former. -/
theorem C3_row_arity_policy_witness :
    PrintTable.empty.columnNames.length = 0 ∧
    (PrintTable.empty.AddRow ["a"]
      = (PrintTable.empty, [Diag.rowArityMismatch 1 0]) ∧
     (PrintTable.empty.AddRow []).1.rows = [[]] ∧
     (PrintTable.empty.AddRow []).2 = [] ∧
     (PrintTable.empty.AddRows [["a"], []]).1.rows = [["a"], []] ∧
     (PrintTable.empty.AddRows [["a"], []]).2 = [Diag.rowArityMismatch 1 0]) := by
  refine ⟨by decide, ?_⟩
  have h := C3_row_arity_policy PrintTable.empty ["a"] [] [["a"], []]
    (by decide) (by decide)
  obtain ⟨h1, h2, h3, h4, h5⟩ := h
  exact ⟨h1, by simpa using h2, h3, by simpa using h4, by simpa using h5⟩

/-- Claim C4: under the precondition that every stored row has exactly as
many cells as there are columns, the entire layout computation of `Print`
performs only in-bounds container accesses (`buildLayout` returns `some`);
and at the reachable state `crashC4` (two columns, one 1-cell row appended
by `AddRows` despite the reported mismatch) `Print` performs an
out-of-bounds access (modelled as `none`). -/
theorem C4_print_bounds (t : PrintTable)
    (h : ∀ r ∈ t.rows, r.length = t.columnNames.length) :
    (buildLayout t.title t.columnNames t.rows).isSome = true ∧
    crashC4.Print = none := by
  constructor
  · have hcw : computeWidths t.columnNames t.rows
        = some (scanWidths (t.columnNames.map String.length) t.rows) :=
      computeWidths_eq _ _ (by intro r hr; rw [h r hr])
    set ws := scanWidths (t.columnNames.map String.length) t.rows with hws
    have hwsl : ws.length = t.columnNames.length := by
      rw [hws, scanWidths_length t.rows _ (by intro r hr; simp [h r hr])]
      simp
    obtain ⟨rowLines, hrl, _, _⟩ := mkRowStrs_spec ws t.rows
      (fun r hr => rowSegments_spec ws r (by rw [h r hr, hwsl])
        (fun i => finalWidths_cell_bound _ _ h r hr i))
    rw [buildLayout, hcw, Option.some_bind, hrl]
    rfl
  · rfl

/-- Claim C4, witness: the bounds theorem evaluated on `demoTable`. -/
theorem C4_print_bounds_witness :
    (buildLayout demoTable.title demoTable.columnNames demoTable.rows).isSome
        = true ∧
    crashC4.Print = none :=
  C4_print_bounds demoTable (by decide)

/-- Claim C5: whenever the title is empty, or there are no columns, or no
rows, `Print` emits only the incomplete-table diagnostic and returns the
state completely unchanged; and `Reset` followed by `Print` always takes
this path. -/
theorem C5_incomplete_table (t u : PrintTable)
    (h : t.title = "" ∨ t.columnNames = [] ∨ t.rows = []) :
    t.Print = some (t, PrintResult.incomplete) ∧
    u.Reset.Print = some (u.Reset, PrintResult.incomplete) := by
  constructor
  · rw [PrintTable.Print, if_pos h]
  · rw [PrintTable.Print,
      if_pos (show u.Reset.title = "" ∨ u.Reset.columnNames = [] ∨ u.Reset.rows = []
        from Or.inl rfl)]

/-- Claim C5, witness: the incomplete-table theorem evaluated on the empty
table and on `demoTable` after a reset. -/
theorem C5_incomplete_table_witness :
    PrintTable.empty.Print = some (PrintTable.empty, PrintResult.incomplete) ∧
    demoTable.Reset.Print = some (demoTable.Reset, PrintResult.incomplete) :=
  C5_incomplete_table PrintTable.empty demoTable (by decide)

/-- Claim C6: once `startedAddingRows` is set, `AddColumn` reports the
schema-locked condition and returns the state entirely unchanged (dirty
flag included); before that it appends the name and marks the table dirty,
reporting nothing. -/
theorem C6_schema_lock (t₁ t₂ : PrintTable) (name : String)
    (h₁ : t₁.startedAddingRows = true) (h₂ : t₂.startedAddingRows = false) :
    t₁.AddColumn name = (t₁, [Diag.schemaLocked]) ∧
    (t₂.AddColumn name).1.columnNames = t₂.columnNames ++ [name] ∧
    (t₂.AddColumn name).1.alteredState = true ∧
    (t₂.AddColumn name).2 = [] := by
  refine ⟨?_, ?_, ?_, ?_⟩ <;>
    simp [PrintTable.AddColumn, h₁, h₂]

/-- Claim C6, witness: the schema-lock theorem evaluated on `cexC7` (which
has a row) and on the empty table. -/
theorem C6_schema_lock_witness :
    cexC7.AddColumn ("B") = (cexC7, [Diag.schemaLocked]) ∧
    (PrintTable.empty.AddColumn ("B")).1.columnNames
      = PrintTable.empty.columnNames ++ ["B"] ∧
    (PrintTable.empty.AddColumn ("B")).1.alteredState = true ∧
    (PrintTable.empty.AddColumn ("B")).2 = [] :=
  C6_schema_lock cexC7 PrintTable.empty ("B") (by decide) (by decide)

/-- Claim C7, counterexample.  Print the reachable table `cexC7` (filling
the caches), then `Reset`: the cached title line, row lines, divider line
and header line all survive the reset, so the cached layout is NOT cleared
and the object is not as if newly created. -/
theorem C7_counterexample :
    (afterPrint cexC7).Reset.titleStr = "| T |" ∧ "| T |" ≠ "" ∧
    (afterPrint cexC7).Reset.rowStrs = ["| x |"] ∧
    (afterPrint cexC7).Reset.fullDividerStr = "-----" ∧
    (afterPrint cexC7).Reset.columnStr = "| A |" := by
  refine ⟨?_, ?_, ?_, ?_, ?_⟩ <;> decide

/-- Claim C7, amended.  `Reset` clears the title, the column names, the
rows and the cached column widths, sets `startedAddingRows` to false and
`alteredState` to true, but leaves the cached divider, title, header and
row-line strings exactly as they were (they are stale until the next
render, which the dirty flag forces to recompute everything). -/
theorem C7_reset (t : PrintTable) :
    t.Reset.title = "" ∧ t.Reset.columnNames = [] ∧ t.Reset.rows = [] ∧
    t.Reset.maxColumnWidths = [] ∧ t.Reset.startedAddingRows = false ∧
    t.Reset.alteredState = true ∧
    t.Reset.fullDividerStr = t.fullDividerStr ∧
    t.Reset.titleStr = t.titleStr ∧
    t.Reset.columnStr = t.columnStr ∧
    t.Reset.rowStrs = t.rowStrs :=
  ⟨rfl, rfl, rfl, rfl, rfl, rfl, rfl, rfl, rfl, rfl⟩

/-- Claim C8, counterexample.  Calling `AddRows` with the empty list on a
fresh table changes `startedAddingRows` from false to true and
`alteredState` from false to true, while appending nothing — the flags are
not left unchanged as the claim states. -/
theorem C8_counterexample :
    PrintTable.empty.startedAddingRows = false ∧
    PrintTable.empty.alteredState = false ∧
    (PrintTable.empty.AddRows []).1.startedAddingRows = true ∧
    (PrintTable.empty.AddRows []).1.alteredState = true ∧
    (PrintTable.empty.AddRows []).1.rows = [] := by
  refine ⟨?_, ?_, ?_, ?_, ?_⟩ <;> rfl

/-- Claim C8, amended.  `AddRows` unconditionally sets `startedAddingRows`
to true and marks the state altered, even when called with an empty list;
in particular after any call with a non-empty list `startedAddingRows` is
true. -/
theorem C8_addrows_flags (t : PrintTable) (rs : List (List String)) :
    (t.AddRows rs).1.startedAddingRows = true ∧
    (t.AddRows rs).1.alteredState = true :=
  ⟨rfl, rfl⟩

/-- Claim C9: in all three centring sites (cell into its column width,
header name into a strictly wider column, title into the content width),
the emitted segment is leftPad spaces, then the text, then rightPad spaces,
with leftPad = (W-L)/2 rounded down and rightPad = (W-L) - leftPad, which
equals (W-L+1)/2 rounded down. -/
theorem C9_centering (w v tw : Nat) (text : String)
    (hcell : text.length ≤ w) (hcol : text.length < v)
    (htitle : text.length + 4 ≤ tw) :
    cellSegment w text
      = "| " ++ spaces ((w - text.length) / 2) ++ text
          ++ spaces ((w - text.length) - (w - text.length) / 2) ++ " " ∧
    (w - text.length) - (w - text.length) / 2 = (w - text.length + 1) / 2 ∧
    columnSegment v text
      = "| " ++ spaces ((v - text.length) / 2) ++ text
          ++ spaces ((v - text.length) - (v - text.length) / 2) ++ " " ∧
    (v - text.length) - (v - text.length) / 2 = (v - text.length + 1) / 2 ∧
    mkTitleStr tw text
      = "| " ++ spaces ((tw - 4 - text.length) / 2) ++ text
          ++ spaces ((tw - 4 - text.length) - (tw - 4 - text.length) / 2) ++ " |" ∧
    (tw - 4 - text.length) - (tw - 4 - text.length) / 2
      = (tw - 4 - text.length + 1) / 2 := by
  have hw1 : ((w : Int) - text.length) = ((w - text.length : Nat) : Int) := by omega
  have hw2 : ((w - text.length : Nat) : Int) + 1
      = ((w - text.length + 1 : Nat) : Int) := by omega
  have hv1 : ((v : Int) - text.length) = ((v - text.length : Nat) : Int) := by omega
  have hv2 : ((v - text.length : Nat) : Int) + 1
      = ((v - text.length + 1 : Nat) : Int) := by omega
  have ht1 : titleLengthDiff tw text = ((tw - 4 - text.length : Nat) : Int) := by
    rw [titleLengthDiff]
    omega
  have ht2 : ((tw - 4 - text.length : Nat) : Int) + 1
      = ((tw - 4 - text.length + 1 : Nat) : Int) := by omega
  have idw : (w - text.length) - (w - text.length) / 2 = (w - text.length + 1) / 2 := by
    omega
  have idv : (v - text.length) - (v - text.length) / 2 = (v - text.length + 1) / 2 := by
    omega
  have idt : (tw - 4 - text.length) - (tw - 4 - text.length) / 2
      = (tw - 4 - text.length + 1) / 2 := by omega
  refine ⟨?_, idw, ?_, idv, ?_, idt⟩
  · rw [idw]
    simp only [cellSegment, hw1, hw2, tdiv2_coe, repChar_coe, spaces]
  · rw [idv]
    have hpos : (0 : Int) < (v : Int) - text.length := by omega
    simp only [columnSegment]
    rw [if_pos hpos]
    simp only [hv1, hv2, tdiv2_coe, repChar_coe, spaces]
  · rw [idt]
    simp only [mkTitleStr, titleNumPreSpace, titleNumPostSpace, ht1, ht2,
      tdiv2_coe, repChar_coe, spaces]

/-- Claim C9, witness: the centring theorem evaluated at widths 5, 4, 10
for a text of length 2. -/
theorem C9_centering_witness :
    cellSegment 5 "ab"
      = "| " ++ spaces ((5 - ("ab" : String).length) / 2) ++ "ab"
          ++ spaces ((5 - ("ab" : String).length)
              - (5 - ("ab" : String).length) / 2) ++ " " ∧
    (5 - ("ab" : String).length) - (5 - ("ab" : String).length) / 2
      = (5 - ("ab" : String).length + 1) / 2 ∧
    columnSegment 4 "ab"
      = "| " ++ spaces ((4 - ("ab" : String).length) / 2) ++ "ab"
          ++ spaces ((4 - ("ab" : String).length)
              - (4 - ("ab" : String).length) / 2) ++ " " ∧
    (4 - ("ab" : String).length) - (4 - ("ab" : String).length) / 2
      = (4 - ("ab" : String).length + 1) / 2 ∧
    mkTitleStr 10 "ab"
      = "| " ++ spaces ((10 - 4 - ("ab" : String).length) / 2) ++ "ab"
          ++ spaces ((10 - 4 - ("ab" : String).length)
              - (10 - 4 - ("ab" : String).length) / 2) ++ " |" ∧
    (10 - 4 - ("ab" : String).length) - (10 - 4 - ("ab" : String).length) / 2
      = (10 - 4 - ("ab" : String).length + 1) / 2 :=
  C9_centering 5 4 10 "ab" (by decide) (by decide) (by decide)

/-- Claim C10: for any table total width of at least 4 (which holds as soon
as there is one column), the title-line construction is well defined — both
pad counts non-negative and the built title line of length exactly the
table total width — if and only if the title's length is at most the table
total width minus 4; and at the reachable state `reachC10`, whose title is
longer than that, the computed pre-pad is negative. -/
theorem C10_title_padding (tw : Nat) (title : String) (h4 : 4 ≤ tw) :
    ((0 ≤ titleNumPreSpace tw title ∧ 0 ≤ titleNumPostSpace tw title ∧
        (mkTitleStr tw title).length = tw) ↔ title.length ≤ tw - 4) ∧
    (tableTotalWidth reachC10 - 4 < reachC10.title.length ∧
     titleNumPreSpace (tableTotalWidth reachC10) reachC10.title < 0) := by
  constructor
  · constructor
    · rintro ⟨hpre, hpost, hlen⟩
      by_contra hgt
      push_neg at hgt
      have hd : titleLengthDiff tw title ≤ -1 := by
        rw [titleLengthDiff]
        omega
      rcases eq_or_lt_of_le hd with hd1 | hd2
      · have hp0 : titleNumPreSpace tw title = 0 := by
          rw [titleNumPreSpace, hd1]
          decide
        have hq0 : titleNumPostSpace tw title = 0 := by
          rw [titleNumPostSpace, hd1]
          decide
        have hL : title.length = tw - 3 := by
          have := hd1
          rw [titleLengthDiff] at this
          omega
        have : (mkTitleStr tw title).length = title.length + 4 := by
          simp only [mkTitleStr, hp0, hq0, String.length_append, repChar_length]
          have e1 : ((0 : Int)).toNat = 0 := rfl
          have e2 : ("| " : String).length = 2 := rfl
          have e3 : (" |" : String).length = 2 := rfl
          rw [e1, e2, e3]
          omega
        omega
      · have hd2' : titleLengthDiff tw title ≤ -2 := by omega
        have := tdiv_two_le_neg_one (titleLengthDiff tw title) hd2'
        rw [show Int.tdiv (titleLengthDiff tw title) 2 = titleNumPreSpace tw title
          from rfl] at this
        omega
    · intro hle
      have hfit : title.length + 4 ≤ tw := by omega
      have hdc : titleLengthDiff tw title = ((tw - 4 - title.length : Nat) : Int) := by
        rw [titleLengthDiff]
        omega
      have hdc1 : titleLengthDiff tw title + 1
          = ((tw - 4 - title.length + 1 : Nat) : Int) := by
        rw [hdc]
        omega
      refine ⟨?_, ?_, mkTitleStr_length tw title hfit⟩
      · rw [titleNumPreSpace, hdc, tdiv2_coe]
        exact Int.natCast_nonneg _
      · rw [titleNumPostSpace, hdc1, tdiv2_coe]
        exact Int.natCast_nonneg _
  · refine ⟨?_, ?_⟩ <;> decide

/-- Claim C10, witness: the title-padding theorem evaluated at table total
width 10 and a title of length 2. -/
theorem C10_title_padding_witness :
    ((0 ≤ titleNumPreSpace 10 "ab" ∧ 0 ≤ titleNumPostSpace 10 "ab" ∧
        (mkTitleStr 10 "ab").length = 10) ↔ ("ab" : String).length ≤ 10 - 4) ∧
    (tableTotalWidth reachC10 - 4 < reachC10.title.length ∧
     titleNumPreSpace (tableTotalWidth reachC10) reachC10.title < 0) :=
  C10_title_padding 10 "ab" (by decide)
